import Mathlib

/-!
# Verification of the robotframework-hub route handlers

A shallow embedding of the two route-handling modules of the repository:

* `rfhub/blueprints/api/keywords.py` — JSON endpoints over the keyword store
  (`ApiEndpoint.get_library_keywords`, `ApiEndpoint.get_library_keyword`).
* `rfhub/blueprints/doc/__init__.py` — the HTML search view (`search`) and the
  documentation converter (`doc_to_html`).

The external keyword database (`kwdb`), the HTML formatter (`html_format` /
`DocToHtml`) and the Flask `url_for` helper are collaborators the handlers only call;
they are modelled as function-valued fields of an environment record `Env`
over which the theorems quantify.

Python string primitives used by the handlers (`strip`, `lower`, `split`,
`join`, `startswith`, slicing, single-character `replace`, and ordering of
`str` values by code point) are embedded as executable functions on the
character list underlying a `String`, so that every definition evaluates by
kernel reduction on concrete inputs.
-/

/-! ## Python string primitives -/

/-- Python `str.strip()`: remove leading and trailing whitespace. -/
def pyStrip (s : String) : String :=
  String.mk (((s.data.dropWhile Char.isWhitespace).reverse.dropWhile Char.isWhitespace).reverse)

/-- Python `str.lower()` (ASCII case folding, which covers every string the
handlers compare). -/
def pyLower (s : String) : String :=
  String.mk (s.data.map Char.toLower)

/-- Python `str.upper()` (ASCII case folding). -/
def pyUpper (s : String) : String :=
  String.mk (s.data.map Char.toUpper)

/-- Python `str.split(sep)` for a single-character separator: split on every
occurrence, keeping empty pieces, as Python does for an explicit separator. -/
def pySplit (sep : Char) (s : String) : List String :=
  (s.data.splitOn sep).map String.mk

/-- Python `sep.join(parts)`. -/
def pyJoin (sep : String) (parts : List String) : String :=
  String.mk (List.intercalate sep.data (parts.map String.data))

/-- Python `s.startswith(pre)`. -/
def pyStartsWith (pre s : String) : Bool :=
  pre.data.isPrefixOf s.data

/-- Python slicing `s[n:]` (by characters). -/
def pyDrop (n : Nat) (s : String) : String :=
  String.mk (s.data.drop n)

/-- Python `s.replace(old, new)` for single-character `old`/`new`. -/
def pyReplace (old new : Char) (s : String) : String :=
  String.mk (s.data.map (fun c => if c = old then new else c))

/-- The Python `<=` on strings, i.e. lexicographic comparison by code point,
on the underlying character lists.  Executable by kernel reduction (the
library comparison on `String` is iterator-based and is not). -/
def pyLeChars : List Char → List Char → Bool
  | [], _ => true
  | _ :: _, [] => false
  | a :: as, b :: bs =>
      if a.toNat < b.toNat then true
      else if b.toNat < a.toNat then false
      else pyLeChars as bs

/-- The Python `<=` on strings. -/
def pyLe (s t : String) : Bool :=
  pyLeChars s.data t.data

/-! ## Data model

The shapes of the values the external `kwdb` store hands to the handlers,
read off from how the Python code destructures them. -/

/-- One row of `kwdb.get_keywords(pattern)`:
`(collection_id, collection_name, keyword_name, doc, args)`. -/
structure KeywordRow where
  collection_id : String
  collection_name : String
  name : String
  doc : String
  args : String
deriving DecidableEq, Repr

/-- One record of `kwdb.get_collections(...)`; the handlers read only
`collection_id` and `name`. -/
structure CollectionRec where
  collection_id : String
  name : String
deriving DecidableEq, Repr

/-- The record returned by `kwdb.get_keyword(collection_id, name)`: a dict
containing at least `collection_id`, plus further fields the handler passes
through unchanged. -/
structure KeywordRec where
  collection_id : String
  fields : List (String × String)
deriving DecidableEq, Repr

/-- One tuple of `kwdb.search(pattern, mode)`:
`(collection_id, collection_name, keyword_name, synopsis)`. -/
structure SearchRow where
  collection_id : String
  collection_name : String
  name : String
  synopsis : String
deriving DecidableEq, Repr

/-- The external collaborators of the handlers: the query methods of the `kwdb` store; its
methods.  `get_keyword` may raise (`Except.error`) or return a falsy value
(`Except.ok none`). -/
structure Kwdb where
  get_keywords : String → List KeywordRow
  get_collections_by_pattern : String → List CollectionRec
  get_collections_all : List CollectionRec
  get_keyword : String → String → Except String (Option KeywordRec)
  search : String → String → List SearchRow

/-- The request environment: the configured store, the HTML formatter
(`robot.utils.html_format`, which may raise), the Flask `url_for` helper for each
endpoint referenced, and the application version string. -/
structure Env where
  kwdb : Kwdb
  html_format : String → Except String String
  url_doc_for_library : String → String → String
  url_api_keyword : String → String → String
  url_api_library : String → String
  url_get_library : String → String
  version : String

/-- A Flask response: a JSON body with status 200, or an `abort(status)`. -/
inductive ApiResponse (α : Type) where
  | ok (body : α)
  | httpError (status : Nat) (description : String)
deriving DecidableEq, Repr

/-- The HTTP status of a response (`jsonify` replies carry status 200). -/
def statusOf {α : Type} : ApiResponse α → Nat
  | .ok _ => 200
  | .httpError s _ => s

/-! ## `rfhub/blueprints/api/keywords.py` — `ApiEndpoint.get_library_keywords` -/

/-- The `all_fields` tuple of `get_library_keywords`, in source order. -/
def allFields : List String :=
  ["collection_id", "library", "name", "synopsis", "doc", "htmldoc",
   "args", "doc_keyword_url", "api_keyword_url", "api_library_url"]

/-- `fields_to_include`: the `fields` query parameter is stripped and
lower-cased; `"*"` selects `all_fields`, otherwise it is split on commas and
each piece stripped. -/
def fieldsToInclude (fieldsArg : String) : List String :=
  let req := pyLower (pyStrip fieldsArg)
  if req = "*" then allFields else (pySplit ',' req).map pyStrip

/-- The per-row `field_mapping` dict of `get_library_keywords` as a partial
lookup: `some` exactly on the nine keys the dict carries (`htmldoc` is not
among them; the handler treats it in a separate `elif` branch). -/
def fieldValue (env : Env) (row : KeywordRow) (field : String) : Option String :=
  if field = "collection_id" then some row.collection_id
  else if field = "library" then some row.collection_name
  else if field = "name" then some row.name
  else if field = "synopsis" then some ((pySplit '\n' (pyStrip row.doc)).headD "")
  else if field = "doc" then some row.doc
  else if field = "args" then some row.args
  else if field = "doc_keyword_url" then some (env.url_doc_for_library row.collection_id row.name)
  else if field = "api_keyword_url" then some (env.url_api_keyword row.collection_id row.name)
  else if field = "api_library_url" then some (env.url_api_library row.collection_id)
  else none

/-- The `htmldoc` value: `html_format(keyword_doc)`, with an exception caught
and replaced by the inline error paragraph. -/
def renderHtmldoc (env : Env) (doc : String) : String :=
  match env.html_format doc with
  | .ok h => h
  | .error e => "<p>Error generating documentation: " ++ e ++ "</p>"

/-- The keys of a JSON object modelled as an association list. -/
def keysOf (data : List (String × String)) : List String :=
  data.map Prod.fst

/-- Python dict assignment `data[k] = v`: overwrite in place if the key is
present, append otherwise. -/
def insertField (data : List (String × String)) (k v : String) : List (String × String) :=
  if k ∈ keysOf data then data.map (fun p => if p.1 = k then (k, v) else p)
  else data ++ [(k, v)]

/-- One iteration of the `for field in fields_to_include` loop. -/
def renderStep (env : Env) (row : KeywordRow) (data : List (String × String))
    (field : String) : List (String × String) :=
  match fieldValue env row field with
  | some v => insertField data field v
  | none =>
      if field = "htmldoc" then insertField data "htmldoc" (renderHtmldoc env row.doc)
      else data

/-- The response object built for one keyword row. -/
def renderRow (env : Env) (fields : List String) (row : KeywordRow) :
    List (String × String) :=
  fields.foldl (renderStep env row) []

/-- The rows that survive the
`if collection_id == "" or collection_id == keyword_collection_id` test,
over the answer of the store for the stripped, lower-cased `pattern` parameter. -/
def filteredRows (env : Env) (collection_id patternArg : String) : List KeywordRow :=
  (env.kwdb.get_keywords (pyLower (pyStrip patternArg))).filter
    (fun row => decide (collection_id = "" ∨ collection_id = row.collection_id))

/-- `ApiEndpoint.get_library_keywords`: the handler for
`/keywords/<collection_id>`, with the `pattern` and `fields` query parameters
made explicit.  Always answers `jsonify(keywords=result)` (status 200); the
500 branch concerns a missing `kwdb` attribute, i.e. an unconfigured
application, which `Env` rules out. -/
def get_library_keywords (env : Env) (collection_id patternArg fieldsArg : String) :
    ApiResponse (List (List (String × String))) :=
  .ok ((filteredRows env collection_id patternArg).map
        (renderRow env (fieldsToInclude fieldsArg)))

/-! ## `rfhub/blueprints/api/keywords.py` — `ApiEndpoint.get_library_keyword` -/

/-- The collection lookup of `get_library_keyword`:
`kwdb.get_collections(pattern=collection_id.strip().lower())`. -/
def collectionsLookup (env : Env) (collection_id : String) : List CollectionRec :=
  env.kwdb.get_collections_by_pattern (pyLower (pyStrip collection_id))

/-- The reassignment `collection_id = collections[0]["collection_id"]`
performed when the lookup returns exactly one collection; any other outcome
leaves the identifier unchanged. -/
def resolvedCollectionId (env : Env) (collection_id : String) : String :=
  match collectionsLookup env collection_id with
  | [c] => c.collection_id
  | _ => collection_id

/-- `ApiEndpoint.get_library_keyword`: the handler for
`/keywords/<collection_id>/<keyword>`.  Two or more lookup matches abort with
404; then `kwdb.get_keyword` is tried, an exception or a falsy record giving
404, and a record answering `jsonify(keyword=...)` with `library_url`
attached. -/
def get_library_keyword (env : Env) (collection_id keyword : String) :
    ApiResponse (KeywordRec × String) :=
  if 2 ≤ (collectionsLookup env collection_id).length then
    .httpError 404 "Ambiguous collection identifier."
  else
    match env.kwdb.get_keyword (resolvedCollectionId env collection_id) keyword with
    | .error _ => .httpError 404 "Keyword not found or database error."
    | .ok none => .httpError 404 "Keyword not found."
    | .ok (some rec) => .ok (rec, env.url_get_library rec.collection_id)

/-! ## `rfhub/blueprints/doc/__init__.py` — `search` -/

/-- The lower-cased collection names the search view collects:
`[c["name"].lower() for c in kwdb.get_collections()]`. -/
def searchCollections (env : Env) : List String :=
  env.kwdb.get_collections_all.map (fun c => pyLower c.name)

/-- The query after stripping/lower-casing, with the `name:` mode switch
applied: returns the remaining pattern and the search mode. -/
def searchParsed (patternArg : String) : String × String :=
  let pattern := pyLower (pyStrip patternArg)
  if pyStartsWith "name:" pattern then (pyStrip (pyDrop 5 pattern), "name")
  else (pattern, "both")

/-- The `for word in pattern.split(" ")` loop: an `in:<prefix>` token extends
the filter list with every collection name starting with the prefix, any
other word is kept as search text.  Written as structural recursion; the
appends keep the left-to-right source order of both lists. -/
def collectSearchTerms (collections : List String) : List String → List String × List String
  | [] => ([], [])
  | word :: rest =>
      let acc := collectSearchTerms collections rest
      if pyStartsWith "in:" (pyLower word) then
        (acc.1, (collections.filter (fun name => pyStartsWith (pyDrop 3 word) name)) ++ acc.2)
      else (word :: acc.1, acc.2)

/-- The `(words, filters)` pair the search view derives from the query. -/
def searchTerms (env : Env) (patternArg : String) : List String × List String :=
  collectSearchTerms (searchCollections env) (pySplit ' ' (searchParsed patternArg).1)

/-- The dict appended for one store result tuple, including the synthesized
`row_id = "row-%s.%s" % (keyword[1].lower(), keyword[2].lower().replace(" ", "-"))`. -/
structure SearchResult where
  collection_id : String
  collection_name : String
  name : String
  synopsis : String
  version : String
  url : String
  row_id : String
deriving DecidableEq, Repr

/-- Builds the result row for one `kwdb.search` tuple. -/
def mkSearchResult (env : Env) (kw : SearchRow) : SearchResult :=
  { collection_id := kw.collection_id
    collection_name := kw.collection_name
    name := kw.name
    synopsis := kw.synopsis
    version := env.version
    url := env.url_doc_for_library kw.collection_id kw.name
    row_id := "row-" ++ pyLower kw.collection_name ++ "."
                ++ pyReplace ' ' '-' (pyLower kw.name) }

/-- The `search` view of the doc blueprint: parse the query, ask the store,
keep a tuple when the filter list is empty or contains the lower-cased
collection name, build the row dicts, and sort them by keyword name
(`keywords.sort(key=lambda kw: kw["name"])` — a stable ascending sort, here
insertion sort under the code-point order on names). -/
def search (env : Env) (patternArg : String) : List SearchResult :=
  let text := pyJoin " " (searchTerms env patternArg).1
  let filters := (searchTerms env patternArg).2
  let rows := (env.kwdb.search text (searchParsed patternArg).2).filter
      (fun kw => decide (filters = [] ∨ pyLower kw.collection_name ∈ filters))
  List.insertionSort (fun a b => pyLe a.name b.name = true) (rows.map (mkSearchResult env))

/-! ## `rfhub/blueprints/doc/__init__.py` — `doc_to_html` -/

/-- `doc_to_html(doc, doc_format="ROBOT")`: a falsy doc (Python `None` or the
empty string) short-circuits to `""`; otherwise the format tag (with an empty
tag falling back to `"ROBOT"`) is upper-cased and the external converter
`DocToHtml(fmt)(doc)` — here the explicit parameter `conv` — is applied. -/
def doc_to_html (conv : String → String → String) (doc : Option String)
    (doc_format : String := "ROBOT") : String :=
  match doc with
  | none => ""
  | some d =>
      if d = "" then ""
      else conv (pyUpper (if doc_format = "" then "ROBOT" else doc_format)) d

/-- `specRowId` — the row identifier as the words of the specification describe it:
collection name and keyword name, *both* lower-cased and with spaces replaced
by hyphens.  Stated from the spec for comparison with the `row_id` of the code
(which replaces spaces in the keyword name only). -/
def specRowId (collection_name keyword_name : String) : String :=
  "row-" ++ pyReplace ' ' '-' (pyLower collection_name) ++ "."
        ++ pyReplace ' ' '-' (pyLower keyword_name)

/-! ## Order lemmas: `pyLe` is the library order on strings -/

/-- `Char` comparison is comparison of code points. -/
theorem charLt_iff_toNat {a b : Char} : a < b ↔ a.toNat < b.toNat := Iff.rfl

/-- Characters with equal code points are equal. -/
theorem charEq_of_toNat {a b : Char} (h : a.toNat = b.toNat) : a = b :=
  Char.eq_of_val_eq (UInt32.eq_of_val_eq (Fin.eq_of_val_eq h))

/-- The executable comparator agrees with the lexicographic strict order:
`pyLeChars l₁ l₂` holds exactly when `l₂` is not lexicographically below
`l₁`. -/
theorem pyLeChars_iff : ∀ l₁ l₂ : List Char,
    pyLeChars l₁ l₂ = true ↔ ¬ List.Lex (· < ·) l₂ l₁
  | [], l₂ => by
      simp only [pyLeChars, true_iff]
      exact List.Lex.not_nil_right _ _
  | a :: as, [] =>
      iff_of_false Bool.false_ne_true (not_not_intro List.Lex.nil)
  | a :: as, b :: bs => by
      rcases Nat.lt_trichotomy a.toNat b.toNat with h | h | h
      · simp only [pyLeChars, if_pos h, true_iff]
        intro hlex
        cases hlex with
        | cons h' => omega
        | rel h' => exact absurd (charLt_iff_toNat.mp h') (by omega)
      · have hne : ¬ a.toNat < b.toNat := by omega
        have hne' : ¬ b.toNat < a.toNat := by omega
        have hab : a = b := charEq_of_toNat h
        subst hab
        simp only [pyLeChars, if_neg hne, pyLeChars_iff as bs]
        constructor
        · intro hnl hlex
          cases hlex with
          | cons h' => exact hnl h'
          | rel h' => exact absurd (charLt_iff_toNat.mp h') (by omega)
        · intro hnl hlex
          exact hnl (List.Lex.cons hlex)
      · have hval : pyLeChars (a :: as) (b :: bs) = false := by
          simp only [pyLeChars, if_neg (by omega : ¬ a.toNat < b.toNat), if_pos h]
        rw [hval]
        exact iff_of_false Bool.false_ne_true
          (not_not_intro (List.Lex.rel (charLt_iff_toNat.mpr h)))

/-- `pyLe` is the (linear) order on `String`. -/
theorem pyLe_iff {s t : String} : pyLe s t = true ↔ s ≤ t := by
  rw [String.le_iff_toList_le]
  have h1 : pyLe s t = pyLeChars s.data t.data := rfl
  rw [h1, pyLeChars_iff]
  constructor
  · intro hn
    exact le_of_not_lt hn
  · intro hle
    exact not_lt_of_le hle

/-- The comparator `search` sorts with is total. -/
instance : IsTotal SearchResult (fun a b => pyLe a.name b.name = true) :=
  ⟨fun a b => by
    rw [pyLe_iff, pyLe_iff]
    exact le_total a.name b.name⟩

/-- The comparator `search` sorts with is transitive. -/
instance : IsTrans SearchResult (fun a b => pyLe a.name b.name = true) :=
  ⟨fun a b c hab hbc => by
    rw [pyLe_iff] at hab hbc ⊢
    exact le_trans hab hbc⟩

/-! ## Dict-building lemmas for `get_library_keywords` -/

/-- Keys after a dict assignment: unchanged when the key was present,
the key appended otherwise. -/
theorem keysOf_insertField (data : List (String × String)) (k v : String) :
    keysOf (insertField data k v) =
      if k ∈ keysOf data then keysOf data else keysOf data ++ [k] := by
  unfold insertField
  by_cases h : k ∈ keysOf data
  · rw [if_pos h, if_pos h]
    unfold keysOf
    rw [List.map_map]
    apply List.map_congr_left
    intro p _
    by_cases hp : p.1 = k
    · simp [Function.comp, hp]
    · simp [Function.comp, hp]
  · rw [if_neg h, if_neg h]
    unfold keysOf
    rw [List.map_append]
    rfl

/-- A dict assignment makes its own pair a member. -/
theorem mem_insertField_self (data : List (String × String)) (k v : String) :
    (k, v) ∈ insertField data k v := by
  unfold insertField
  by_cases h : k ∈ keysOf data
  · rw [if_pos h]
    obtain ⟨p, hp, hpk⟩ := List.mem_map.mp h
    refine List.mem_map.mpr ⟨p, hp, ?_⟩
    rw [if_pos hpk]
  · rw [if_neg h]
    exact List.mem_append_right _ (List.mem_singleton.mpr rfl)

/-- A dict assignment leaves pairs under other keys untouched. -/
theorem mem_insertField_of_ne {p : String × String} {data : List (String × String)}
    (hp : p ∈ data) {k : String} (hk : p.1 ≠ k) (v : String) :
    p ∈ insertField data k v := by
  unfold insertField
  by_cases h : k ∈ keysOf data
  · rw [if_pos h]
    have he : (if p.1 = k then (k, v) else p) = p := if_neg hk
    rw [← he]
    exact List.mem_map_of_mem _ hp
  · rw [if_neg h]
    exact List.mem_append_left _ hp

/-- `field_mapping` answers only for the nine recognized non-`htmldoc`
fields. -/
theorem fieldValue_some_mem {env : Env} {row : KeywordRow} {f v : String}
    (h : fieldValue env row f = some v) : f ∈ allFields ∧ f ≠ "htmldoc" := by
  unfold fieldValue at h
  split_ifs at h with h1 h2 h3 h4 h5 h6 h7 h8 h9
  all_goals subst_vars
  all_goals exact ⟨by decide, by decide⟩

/-- Every recognized field is either answered by `field_mapping` or is
`htmldoc`. -/
theorem fieldValue_of_mem_allFields {env : Env} {row : KeywordRow} {f : String}
    (hf : f ∈ allFields) :
    (∃ v, fieldValue env row f = some v) ∨ f = "htmldoc" := by
  have hf' : f = "collection_id" ∨ f = "library" ∨ f = "name" ∨ f = "synopsis" ∨
      f = "doc" ∨ f = "htmldoc" ∨ f = "args" ∨ f = "doc_keyword_url" ∨
      f = "api_keyword_url" ∨ f = "api_library_url" := by
    simpa [allFields] using hf
  rcases hf' with rfl | rfl | rfl | rfl | rfl | rfl | rfl | rfl | rfl | rfl
  all_goals first
    | (right; rfl)
    | (left; exact ⟨_, rfl⟩)

/-- On a recognized field the loop body performs a dict assignment under that
field name. -/
theorem renderStep_of_mem_allFields (env : Env) (row : KeywordRow)
    (data : List (String × String)) {f : String} (hf : f ∈ allFields) :
    ∃ v, renderStep env row data f = insertField data f v := by
  rcases @fieldValue_of_mem_allFields env row _ hf with ⟨v, hv⟩ | rfl
  · exact ⟨v, by rw [renderStep, hv]⟩
  · refine ⟨renderHtmldoc env row.doc, ?_⟩
    rw [renderStep]
    have hnone : fieldValue env row "htmldoc" = none := rfl
    rw [hnone, if_pos rfl]

/-! ## Behaviour of the field loop -/

theorem renderStep_html_format (env : Env) (hf' : String → Except String String)
    (row : KeywordRow) (h : hf' row.doc = env.html_format row.doc) :
    renderStep {env with html_format := hf'} row = renderStep env row := by
  funext data f
  unfold renderStep
  have h2 : fieldValue {env with html_format := hf'} row f = fieldValue env row f := rfl
  rw [h2]
  have h1 : renderHtmldoc {env with html_format := hf'} row.doc
      = renderHtmldoc env row.doc := by
    unfold renderHtmldoc
    have h3 : ({env with html_format := hf'} : Env).html_format row.doc
        = env.html_format row.doc := h
    rw [h3]
  rw [h1]

theorem renderStep_keeps_htmldoc (env : Env) (row : KeywordRow)
    (data : List (String × String)) (f : String)
    (hmem : ("htmldoc", renderHtmldoc env row.doc) ∈ data) :
    ("htmldoc", renderHtmldoc env row.doc) ∈ renderStep env row data f := by
  unfold renderStep
  cases hfv : fieldValue env row f with
  | some v =>
      exact mem_insertField_of_ne hmem
        (fun hc => (fieldValue_some_mem hfv).2 hc.symm) v
  | none =>
      by_cases hfh : f = "htmldoc"
      · rw [if_pos hfh]
        exact mem_insertField_self data "htmldoc" (renderHtmldoc env row.doc)
      · rw [if_neg hfh]
        exact hmem

theorem foldl_renderStep_htmldoc (env : Env) (row : KeywordRow) :
    ∀ (fields : List String) (data : List (String × String)),
      ("htmldoc" ∈ fields ∨ ("htmldoc", renderHtmldoc env row.doc) ∈ data) →
      ("htmldoc", renderHtmldoc env row.doc) ∈ fields.foldl (renderStep env row) data
  | [], data, h => by
      rcases h with h | h
      · exact absurd h (List.not_mem_nil _)
      · exact h
  | f :: rest, data, h => by
      have hstep : ∀ data' : List (String × String),
          ("htmldoc", renderHtmldoc env row.doc) ∈ data' →
          ("htmldoc", renderHtmldoc env row.doc) ∈ rest.foldl (renderStep env row) data' :=
        fun data' h' => foldl_renderStep_htmldoc env row rest data' (Or.inr h')
      rcases h with h | h
      · rcases List.mem_cons.mp h with rfl | h'
        · have : ("htmldoc", renderHtmldoc env row.doc) ∈ renderStep env row data "htmldoc" := by
            unfold renderStep
            have hnone : fieldValue env row "htmldoc" = none := rfl
            rw [hnone, if_pos rfl]
            exact mem_insertField_self data "htmldoc" (renderHtmldoc env row.doc)
          exact hstep _ this
        · exact foldl_renderStep_htmldoc env row rest (renderStep env row data f) (Or.inl h')
      · exact hstep _ (renderStep_keeps_htmldoc env row data f h)

theorem keysOf_foldl_renderStep (env : Env) (row : KeywordRow) :
    ∀ (fields : List String) (data : List (String × String)),
      (∀ f ∈ fields, f ∈ allFields) → fields.Nodup →
      (∀ f ∈ fields, f ∉ keysOf data) →
      keysOf (fields.foldl (renderStep env row) data) = keysOf data ++ fields
  | [], data, _, _, _ => by simp
  | f :: rest, data, hall, hnd, hdisj => by
      obtain ⟨v, hv⟩ := renderStep_of_mem_allFields env row data (hall f (List.mem_cons_self f rest))
      have hfk : f ∉ keysOf data := hdisj f (List.mem_cons_self f rest)
      have hkeys : keysOf (renderStep env row data f) = keysOf data ++ [f] := by
        rw [hv, keysOf_insertField, if_neg hfk]
      have ih := keysOf_foldl_renderStep env row rest (renderStep env row data f)
        (fun g hg => hall g (List.mem_cons_of_mem f hg))
        (List.Nodup.of_cons hnd)
        (fun g hg => by
          rw [hkeys]
          intro hmem
          rcases List.mem_append.mp hmem with h1 | h1
          · exact hdisj g (List.mem_cons_of_mem f hg) h1
          · rcases List.mem_singleton.mp h1 with rfl
            exact (List.nodup_cons.mp hnd).1 hg)
      calc keysOf ((f :: rest).foldl (renderStep env row) data)
          = keysOf (rest.foldl (renderStep env row) (renderStep env row data f)) := rfl
        _ = keysOf (renderStep env row data f) ++ rest := ih
        _ = (keysOf data ++ [f]) ++ rest := by rw [hkeys]
        _ = keysOf data ++ (f :: rest) := by simp

theorem keysOf_foldl_subset (env : Env) (row : KeywordRow) :
    ∀ (fields : List String) (data : List (String × String)) (k : String),
      k ∈ keysOf (fields.foldl (renderStep env row) data) →
      k ∈ keysOf data ∨ k ∈ allFields
  | [], _, _, hk => Or.inl hk
  | f :: rest, data, k, hk => by
      rcases keysOf_foldl_subset env row rest (renderStep env row data f) k hk with h | h
      · cases hfv : fieldValue env row f with
        | some v =>
            unfold renderStep at h
            rw [hfv, keysOf_insertField] at h
            by_cases hfd : f ∈ keysOf data
            · rw [if_pos hfd] at h
              exact Or.inl h
            · rw [if_neg hfd] at h
              rcases List.mem_append.mp h with h1 | h1
              · exact Or.inl h1
              · rcases List.mem_singleton.mp h1 with rfl
                exact Or.inr (fieldValue_some_mem hfv).1
        | none =>
            unfold renderStep at h
            rw [hfv] at h
            by_cases hfh : f = "htmldoc"
            · rw [if_pos hfh, keysOf_insertField] at h
              by_cases hfd : "htmldoc" ∈ keysOf data
              · rw [if_pos hfd] at h
                exact Or.inl h
              · rw [if_neg hfd] at h
                rcases List.mem_append.mp h with h1 | h1
                · exact Or.inl h1
                · rcases List.mem_singleton.mp h1 with rfl
                  exact Or.inr (by decide)
            · rw [if_neg hfh] at h
              exact Or.inl h
      · exact Or.inr h

/-! ## Parsing lemmas for the search view -/

/-- The filter list the search loop collects: the concatenation, over the `in:` tokens in order, of the collection names matching the prefix of each token (union semantics). -/
theorem collectSearchTerms_snd (collections : List String) : ∀ ws : List String,
    (collectSearchTerms collections ws).2
      = (ws.filter (fun w => pyStartsWith "in:" (pyLower w))).flatMap
          (fun w => collections.filter (fun name => pyStartsWith (pyDrop 3 w) name))
  | [] => rfl
  | w :: rest => by
      cases h : pyStartsWith "in:" (pyLower w) <;>
        simp [collectSearchTerms, h, List.filter_cons,
          collectSearchTerms_snd collections rest]

theorem collectSearchTerms_fst (collections : List String) : ∀ ws : List String,
    (collectSearchTerms collections ws).1
      = ws.filter (fun w => !(pyStartsWith "in:" (pyLower w)))
  | [] => rfl
  | w :: rest => by
      cases h : pyStartsWith "in:" (pyLower w) <;>
        simp [collectSearchTerms, h, List.filter_cons,
          collectSearchTerms_fst collections rest]

theorem collectSearchTerms_snd_nil (collections : List String) (ws : List String)
    (h : ∀ w ∈ ws, pyStartsWith "in:" (pyLower w) = true →
          collections.filter (fun name => pyStartsWith (pyDrop 3 w) name) = []) :
    (collectSearchTerms collections ws).2 = [] := by
  rw [collectSearchTerms_snd]
  apply List.flatMap_eq_nil_iff.mpr
  intro w hw
  exact h w (List.mem_filter.mp hw).1 (List.mem_filter.mp hw).2

/-! ## Concrete stores used by witnesses, and the claim theorems -/

/-- A concrete environment builder used by witness theorems. -/
def mkEnv (kwdb : Kwdb) (hf : String → Except String String) : Env :=
  { kwdb := kwdb
    html_format := hf
    url_doc_for_library := fun c k => "/doc/keywords/" ++ c ++ "/" ++ k
    url_api_keyword := fun c k => "/api/keywords/" ++ c ++ "/" ++ k
    url_api_library := fun c => "/api/keywords/" ++ c
    url_get_library := fun c => "/api/libraries/" ++ c
    version := "1.0" }

def envB : Env :=
  mkEnv
    { get_keywords := fun _ => []
      get_collections_by_pattern := fun _ => []
      get_collections_all := []
      get_keyword := fun cid kw =>
        if cid = "42" ∧ kw = "Click" then .ok (some ⟨"42", [("name", "Click")]⟩) else .ok none
      search := fun _ _ => [] }
    (fun d => .ok d)

def envB2 : Env :=
  mkEnv
    { get_keywords := fun _ => []
      get_collections_by_pattern := fun _ => [⟨"1", "LibA"⟩, ⟨"2", "LibB"⟩]
      get_collections_all := []
      get_keyword := fun _ _ => .ok none
      search := fun _ _ => [] }
    (fun d => .ok d)

def envC : Env :=
  mkEnv
    { get_keywords := fun _ => []
      get_collections_by_pattern := fun p => if p = "builtin" then [⟨"7", "BuiltIn"⟩] else []
      get_collections_all := [⟨"7", "BuiltIn"⟩]
      get_keyword := fun cid kw =>
        if cid = "7" then .ok (some ⟨"7", [("name", kw)]⟩) else .ok none
      search := fun _ _ => [] }
    (fun d => .ok d)

/-- C2 counterexample: a collection identifier whose name lookup returns zero
matches is passed through unchanged, and when the store then finds the
keyword the request succeeds with status 200 — it does not fail with 404 as
the claim states for the zero-match case. -/
theorem c2_counterexample :
    (collectionsLookup envB "42").length = 0 ∧
    statusOf (get_library_keyword envB "42" "Click") = 200 := by
  constructor
  · decide
  · decide

/-- C2 (amended): `get_library_keyword` answers 404 whenever the lookup is
ambiguous (two or more matches), or the store raises while fetching the
keyword, or the store returns no keyword record; a zero-match lookup alone
does not fail. -/
theorem c2_keyword_404 (env : Env) (collection_id keyword : String)
    (h : 2 ≤ (collectionsLookup env collection_id).length
       ∨ (∃ e, env.kwdb.get_keyword (resolvedCollectionId env collection_id) keyword
            = .error e)
       ∨ env.kwdb.get_keyword (resolvedCollectionId env collection_id) keyword
            = .ok none) :
    statusOf (get_library_keyword env collection_id keyword) = 404 := by
  unfold get_library_keyword
  by_cases hc : 2 ≤ (collectionsLookup env collection_id).length
  · rw [if_pos hc]
    rfl
  · rw [if_neg hc]
    rcases h with h | ⟨e, he⟩ | h
    · exact absurd h hc
    · rw [he]
      rfl
    · rw [h]
      rfl

/-- C2 witness: an ambiguous lookup (two matching collections) yields 404. -/
theorem c2_witness : statusOf (get_library_keyword envB2 "lib" "Click") = 404 :=
  c2_keyword_404 envB2 "lib" "Click" (Or.inl (by decide))

/-- C4: when a collection name resolves to exactly one collection, and the
lookup on its canonical identifier is itself not ambiguous and can only
return that same collection, requesting a keyword by the name and by the
canonical identifier produce the same response. -/
theorem c4_name_resolves_like_id (env : Env) (name keyword : String) (c : CollectionRec)
    (h1 : collectionsLookup env name = [c])
    (h2 : (collectionsLookup env c.collection_id).length ≤ 1)
    (h3 : ∀ c', collectionsLookup env c.collection_id = [c'] →
            c'.collection_id = c.collection_id) :
    get_library_keyword env name keyword
      = get_library_keyword env c.collection_id keyword := by
  have hnL : ¬ 2 ≤ (collectionsLookup env name).length := by
    rw [h1]
    simp
  have hnR : ¬ 2 ≤ (collectionsLookup env c.collection_id).length := by omega
  have hL : resolvedCollectionId env name = c.collection_id := by
    unfold resolvedCollectionId
    rw [h1]
  have hR : resolvedCollectionId env c.collection_id = c.collection_id := by
    unfold resolvedCollectionId
    cases hc : collectionsLookup env c.collection_id with
    | nil => rfl
    | cons x xs =>
        cases xs with
        | nil => exact h3 x hc
        | cons y ys =>
            exfalso
            rw [hc] at h2
            simp at h2
  unfold get_library_keyword
  rw [if_neg hnL, if_neg hnR, hL, hR]

/-- C4 witness: in a store where the name `BuiltIn` resolves to the single
collection with id `7`, the two requests coincide. -/
theorem c4_witness :
    get_library_keyword envC "BuiltIn" "Click" = get_library_keyword envC "7" "Click" :=
  c4_name_resolves_like_id envC "BuiltIn" "Click" ⟨"7", "BuiltIn"⟩
    (by decide) (by decide)
    (fun c' hc => by
      rw [show collectionsLookup envC (CollectionRec.mk "7" "BuiltIn").collection_id = []
            from by decide] at hc
      exact List.noConfusion hc)

/-- C7: `doc_to_html` returns the empty string on `("", "ROBOT")`, and on any
falsy doc input (absent, or the empty string) the result is the empty string
and does not depend on the converter — the converter is never invoked. -/
theorem c7_doc_to_html_empty :
    (∀ conv : String → String → String,
        doc_to_html conv (some "") "ROBOT" = "" ∧ doc_to_html conv none "ROBOT" = "") ∧
    (∀ (conv conv' : String → String → String) (d : Option String) (fmt : String),
        d = none ∨ d = some "" →
        doc_to_html conv d fmt = "" ∧ doc_to_html conv d fmt = doc_to_html conv' d fmt) := by
  constructor
  · intro conv
    exact ⟨rfl, rfl⟩
  · rintro conv conv' d fmt (rfl | rfl)
    · exact ⟨rfl, rfl⟩
    · exact ⟨rfl, rfl⟩

/-- C7 witness: two different converters at the two falsy inputs. -/
theorem c7_witness :
    doc_to_html (fun fmt d => fmt ++ d) (some "") "ROBOT" = ""
      ∧ doc_to_html (fun fmt d => fmt ++ d) none "ROBOT"
          = doc_to_html (fun _ _ => "other") none "ROBOT" :=
  ⟨(c7_doc_to_html_empty.2 (fun fmt d => fmt ++ d) (fun _ _ => "other") (some "") "ROBOT"
      (Or.inr rfl)).1,
   (c7_doc_to_html_empty.2 (fun fmt d => fmt ++ d) (fun _ _ => "other") none "ROBOT"
      (Or.inl rfl)).2⟩

def envA : Env :=
  mkEnv
    { get_keywords := fun _ =>
        [⟨"1", "BuiltIn", "Click", "Clicks a thing.\nDetails.", "[]"⟩]
      get_collections_by_pattern := fun _ => []
      get_collections_all := []
      get_keyword := fun _ _ => .ok none
      search := fun _ _ => [] }
    (fun d => .ok ("<p>" ++ d ++ "</p>"))

def envAerr : Env :=
  mkEnv
    { get_keywords := fun _ =>
        [⟨"1", "BuiltIn", "Click", "Clicks a thing.\nDetails.", "[]"⟩]
      get_collections_by_pattern := fun _ => []
      get_collections_all := []
      get_keyword := fun _ _ => .ok none
      search := fun _ _ => [] }
    (fun _ => .error "boom")

/-- C1: the JSON body lists one object per keyword row passing the collection
filter, and each object carries exactly the requested fields — all recognized
fields when the request is `*`, the parsed field list otherwise (provided it
names recognized fields, without repetition). -/
theorem c1_fields_exact (env : Env) (collection_id patternArg fieldsArg : String)
    (h : pyLower (pyStrip fieldsArg) ≠ "*" →
          (fieldsToInclude fieldsArg).Nodup
            ∧ ∀ f ∈ fieldsToInclude fieldsArg, f ∈ allFields) :
    get_library_keywords env collection_id patternArg fieldsArg
        = .ok ((filteredRows env collection_id patternArg).map
            (renderRow env (fieldsToInclude fieldsArg))) ∧
    ∀ entry ∈ (filteredRows env collection_id patternArg).map
        (renderRow env (fieldsToInclude fieldsArg)),
      keysOf entry = fieldsToInclude fieldsArg := by
  refine ⟨rfl, ?_⟩
  intro entry hentry
  obtain ⟨row, hrow, rfl⟩ := List.mem_map.mp hentry
  have hnd : (fieldsToInclude fieldsArg).Nodup
      ∧ ∀ f ∈ fieldsToInclude fieldsArg, f ∈ allFields := by
    by_cases hstar : pyLower (pyStrip fieldsArg) = "*"
    · have hall : fieldsToInclude fieldsArg = allFields := by
        unfold fieldsToInclude
        rw [hstar]
        simp
      rw [hall]
      exact ⟨by decide, fun f hf => hf⟩
    · exact h hstar
  have hk := keysOf_foldl_renderStep env row (fieldsToInclude fieldsArg) []
    hnd.2 hnd.1 (fun f _ => List.not_mem_nil f)
  simpa [renderRow, keysOf] using hk

/-- C1 witness: one keyword row, fields `name,doc`. -/
theorem c1_witness :
    get_library_keywords envA "" "*" "name,doc"
        = .ok ((filteredRows envA "" "*").map (renderRow envA (fieldsToInclude "name,doc"))) ∧
    ∀ entry ∈ (filteredRows envA "" "*").map (renderRow envA (fieldsToInclude "name,doc")),
      keysOf entry = fieldsToInclude "name,doc" :=
  c1_fields_exact envA "" "*" "name,doc" (fun _ => by decide)

/-- C3: a keyword row whose HTML rendering raises still contributes its
object, whose `htmldoc` entry is the inline error paragraph; the request
keeps status 200 and a full body; and each object depends on the formatter
only through the behaviour of the formatter on the doc text of its own row, so the
failure leaves every other object unchanged. -/
theorem c3_htmldoc_error_isolated (env : Env) (collection_id patternArg fieldsArg : String)
    (row : KeywordRow) (e : String)
    (hrow : row ∈ filteredRows env collection_id patternArg)
    (hfield : "htmldoc" ∈ fieldsToInclude fieldsArg)
    (herr : env.html_format row.doc = .error e) :
    statusOf (get_library_keywords env collection_id patternArg fieldsArg) = 200 ∧
    ("htmldoc", "<p>Error generating documentation: " ++ e ++ "</p>")
        ∈ renderRow env (fieldsToInclude fieldsArg) row ∧
    renderRow env (fieldsToInclude fieldsArg) row
        ∈ (filteredRows env collection_id patternArg).map
            (renderRow env (fieldsToInclude fieldsArg)) ∧
    get_library_keywords env collection_id patternArg fieldsArg
        = .ok ((filteredRows env collection_id patternArg).map
            (renderRow env (fieldsToInclude fieldsArg))) ∧
    (∀ (hf' : String → Except String String) (row' : KeywordRow),
        hf' row'.doc = env.html_format row'.doc →
        renderRow {env with html_format := hf'} (fieldsToInclude fieldsArg) row'
          = renderRow env (fieldsToInclude fieldsArg) row') := by
  refine ⟨rfl, ?_, List.mem_map_of_mem _ hrow, rfl, ?_⟩
  · have h1 : renderHtmldoc env row.doc
        = "<p>Error generating documentation: " ++ e ++ "</p>" := by
      unfold renderHtmldoc
      rw [herr]
    rw [← h1]
    exact foldl_renderStep_htmldoc env row (fieldsToInclude fieldsArg) [] (Or.inl hfield)
  · intro hf' row' hagree
    unfold renderRow
    rw [renderStep_html_format env hf' row' hagree]

/-- C3 witness: a formatter that always raises, on the one stored row. -/
theorem c3_witness :
    statusOf (get_library_keywords envAerr "" "*" "*") = 200 ∧
    ("htmldoc", "<p>Error generating documentation: " ++ "boom" ++ "</p>")
        ∈ renderRow envAerr (fieldsToInclude "*")
            ⟨"1", "BuiltIn", "Click", "Clicks a thing.\nDetails.", "[]"⟩ ∧
    renderRow envAerr (fieldsToInclude "*")
        ⟨"1", "BuiltIn", "Click", "Clicks a thing.\nDetails.", "[]"⟩
        ∈ (filteredRows envAerr "" "*").map (renderRow envAerr (fieldsToInclude "*")) ∧
    get_library_keywords envAerr "" "*" "*"
        = .ok ((filteredRows envAerr "" "*").map (renderRow envAerr (fieldsToInclude "*"))) ∧
    (∀ (hf' : String → Except String String) (row' : KeywordRow),
        hf' row'.doc = envAerr.html_format row'.doc →
        renderRow {envAerr with html_format := hf'} (fieldsToInclude "*") row'
          = renderRow envAerr (fieldsToInclude "*") row') :=
  c3_htmldoc_error_isolated envAerr "" "*" "*"
    ⟨"1", "BuiltIn", "Click", "Clicks a thing.\nDetails.", "[]"⟩ "boom"
    (by decide) (by decide) rfl

/-- C10: the handler reads the `fields` parameter only through
`strip`+`lower`, so case and surrounding blanks of field names cannot change
the response; and whatever is requested, the response keeps status 200 and
every emitted key is a recognized field — unrecognized names are silently
dropped. -/
theorem c10_unrecognized_fields (env : Env) (collection_id patternArg : String) :
    (∀ f1 f2 : String, pyLower (pyStrip f1) = pyLower (pyStrip f2) →
        get_library_keywords env collection_id patternArg f1
          = get_library_keywords env collection_id patternArg f2) ∧
    (∀ fieldsArg : String,
        statusOf (get_library_keywords env collection_id patternArg fieldsArg) = 200 ∧
        ∀ entry ∈ (filteredRows env collection_id patternArg).map
            (renderRow env (fieldsToInclude fieldsArg)),
          ∀ k ∈ keysOf entry, k ∈ allFields) := by
  constructor
  · intro f1 f2 hf
    have he : fieldsToInclude f1 = fieldsToInclude f2 := by
      unfold fieldsToInclude
      rw [hf]
    unfold get_library_keywords
    rw [he]
  · intro fieldsArg
    refine ⟨rfl, ?_⟩
    intro entry hentry k hk
    obtain ⟨row, hrow, rfl⟩ := List.mem_map.mp hentry
    have hk' : k ∈ keysOf ((fieldsToInclude fieldsArg).foldl (renderStep env row) []) := hk
    rcases keysOf_foldl_subset env row (fieldsToInclude fieldsArg) [] k hk' with h | h
    · exact absurd h (List.not_mem_nil k)
    · exact h

/-- C10 witness: mixed-case, padded field names give the same response as
their lower-cased form. -/
theorem c10_witness :
    get_library_keywords envA "" "*" " NAME, Doc "
      = get_library_keywords envA "" "*" "name, doc" :=
  (c10_unrecognized_fields envA "" "*").1 " NAME, Doc " "name, doc" (by decide)

def envD : Env :=
  mkEnv
    { get_keywords := fun _ => []
      get_collections_by_pattern := fun _ => []
      get_collections_all := [⟨"1", "My Lib"⟩]
      get_keyword := fun _ _ => .ok none
      search := fun text mode =>
        if text = "click me" ∧ mode = "both" then [⟨"1", "My Lib", "Click Me", "syn"⟩]
        else [] }
    (fun d => .ok d)

def envE : Env :=
  mkEnv
    { get_keywords := fun _ => []
      get_collections_by_pattern := fun _ => []
      get_collections_all := [⟨"9", "OtherLib"⟩]
      get_keyword := fun _ _ => .ok none
      search := fun text mode =>
        if text = "click" ∧ mode = "both" then [⟨"9", "OtherLib", "Click Here", "syn"⟩]
        else [] }
    (fun d => .ok d)

def envF : Env :=
  mkEnv
    { get_keywords := fun _ => []
      get_collections_by_pattern := fun _ => []
      get_collections_all := [⟨"7", "BuiltIn"⟩, ⟨"9", "OtherLib"⟩]
      get_keyword := fun _ _ => .ok none
      search := fun text mode =>
        if text = "click" ∧ mode = "both" then
          [⟨"7", "BuiltIn", "Click Element", "syn"⟩, ⟨"9", "OtherLib", "Click Here", "syn"⟩]
        else [] }
    (fun d => .ok d)

def envG : Env :=
  mkEnv
    { get_keywords := fun _ => []
      get_collections_by_pattern := fun _ => []
      get_collections_all := [⟨"1", "Lib"⟩]
      get_keyword := fun _ _ => .ok none
      search := fun text mode =>
        if text = "click" ∧ mode = "both" then [⟨"1", "Lib", "Click", "syn"⟩]
        else [] }
    (fun d => .ok d)

/-- C6: whatever the store answers and in whatever order, the search view
hands the template a list sorted by keyword name ascending. -/
theorem c6_search_sorted (env : Env) (patternArg : String) :
    List.Sorted (fun a b : SearchResult => a.name ≤ b.name) (search env patternArg) := by
  have hs : List.Sorted (fun a b : SearchResult => pyLe a.name b.name = true)
      (search env patternArg) := by
    unfold search
    exact List.sorted_insertionSort _ _
  exact hs.imp (fun h => pyLe_iff.mp h)

/-- C8 (amended): every search result row carries the identifier built from
the lower-cased collection name — spaces kept — and the lower-cased keyword
name with spaces replaced by hyphens. -/
theorem c8_row_id (env : Env) (patternArg : String) :
    ∀ row ∈ search env patternArg,
      row.row_id = "row-" ++ pyLower row.collection_name ++ "."
          ++ pyReplace ' ' '-' (pyLower row.name) := by
  intro row hrow
  simp only [search] at hrow
  have hmem := (List.perm_insertionSort
      (fun a b : SearchResult => pyLe a.name b.name = true) _).mem_iff.mp hrow
  obtain ⟨kw, _, rfl⟩ := List.mem_map.mp hmem
  rfl

/-- C8 counterexample: for the collection `My Lib` and keyword `Click Me` the
code produces `row-my lib.click-me` — the space in the collection name is
kept — while the claimed form replaces it, giving `row-my-lib.click-me`. -/
theorem c8_counterexample :
    (search envD "click me").map SearchResult.row_id = ["row-my lib.click-me"] ∧
    (search envD "click me").map (fun r => specRowId r.collection_name r.name)
        = ["row-my-lib.click-me"] ∧
    ("row-my lib.click-me" : String) ≠ "row-my-lib.click-me" := by
  refine ⟨by decide, by decide, by decide⟩

/-- C8 witness: the amended identifier shape at the concrete stored row. -/
theorem c8_witness :
    (SearchResult.mk "1" "My Lib" "Click Me" "syn" "1.0" "/doc/keywords/1/Click Me"
        "row-my lib.click-me").row_id
      = "row-" ++ pyLower "My Lib" ++ "." ++ pyReplace ' ' '-' (pyLower "Click Me") :=
  c8_row_id envD "click me" _ (by decide)

/-- C5 (amended): provided some collection name (lower-cased) starts with
`builtin`, every row answered for the query `in:builtin click` comes from the
store search for the text `click` in mode `both` and belongs to a collection
whose lower-cased name starts with `builtin`; and in general the filter list
is the union — concatenation in token order — of the matches of each `in:`
token. -/
theorem c5_in_token_filters (env : Env)
    (h : ∃ nm ∈ searchCollections env, pyStartsWith "builtin" nm = true) :
    (∀ row ∈ search env "in:builtin click",
        pyStartsWith "builtin" (pyLower row.collection_name) = true ∧
        ∃ kw ∈ env.kwdb.search "click" "both", row = mkSearchResult env kw) ∧
    (∀ ws : List String,
        (collectSearchTerms (searchCollections env) ws).2
          = (ws.filter (fun w => pyStartsWith "in:" (pyLower w))).flatMap
              (fun w => (searchCollections env).filter
                  (fun name => pyStartsWith (pyDrop 3 w) name))) := by
  constructor
  · have hterms : searchTerms env "in:builtin click"
        = (["click"],
           (searchCollections env).filter (fun name => pyStartsWith "builtin" name)) := by
      unfold searchTerms
      rw [show (searchParsed "in:builtin click").1 = "in:builtin click" from by decide]
      rw [show pySplit ' ' "in:builtin click" = ["in:builtin", "click"] from by decide]
      apply Prod.ext
      · rw [collectSearchTerms_fst]
        rfl
      · rw [collectSearchTerms_snd]
        rw [show List.filter (fun w => pyStartsWith "in:" (pyLower w)) ["in:builtin", "click"]
              = ["in:builtin"] from by decide]
        simp only [List.flatMap_cons, List.flatMap_nil, List.append_nil]
        simp only [show pyDrop 3 "in:builtin" = "builtin" from by decide]
    intro row hrow
    obtain ⟨nm, hnm, hst⟩ := h
    have hne : (searchCollections env).filter (fun name => pyStartsWith "builtin" name) ≠ [] :=
      List.ne_nil_of_mem (List.mem_filter.mpr ⟨hnm, hst⟩)
    simp only [search, hterms] at hrow
    rw [show pyJoin " " ["click"] = "click" from by decide] at hrow
    rw [show (searchParsed "in:builtin click").2 = "both" from by decide] at hrow
    have hmem := (List.perm_insertionSort
        (fun a b : SearchResult => pyLe a.name b.name = true) _).mem_iff.mp hrow
    obtain ⟨kw, hkw, rfl⟩ := List.mem_map.mp hmem
    have hkw' := List.mem_filter.mp hkw
    have hpred := of_decide_eq_true hkw'.2
    rcases hpred with hnil | hin
    · exact absurd hnil hne
    · exact ⟨(List.mem_filter.mp hin).2, kw, hkw'.1, rfl⟩
  · intro ws
    exact collectSearchTerms_snd (searchCollections env) ws

/-- C5 witness: a store holding a `BuiltIn` and an `OtherLib` collection. -/
theorem c5_witness :
    pyStartsWith "builtin"
        (pyLower (SearchResult.mk "7" "BuiltIn" "Click Element" "syn" "1.0"
            "/doc/keywords/7/Click Element" "row-builtin.click-element").collection_name)
      = true ∧
    ∃ kw ∈ envF.kwdb.search "click" "both",
      (SearchResult.mk "7" "BuiltIn" "Click Element" "syn" "1.0"
          "/doc/keywords/7/Click Element" "row-builtin.click-element")
        = mkSearchResult envF kw :=
  (c5_in_token_filters envF ⟨"builtin", by decide, by decide⟩).1 _ (by decide)

/-- C9: when every `in:` token of the query matches no collection name, the
collected filter list is empty and no collection filtering happens: the view
returns (a sorted permutation of) the rows for every store result, whatever
its collection. -/
theorem c9_empty_filters_no_filtering (env : Env) (patternArg : String)
    (h : ∀ w ∈ pySplit ' ' (searchParsed patternArg).1,
          pyStartsWith "in:" (pyLower w) = true →
          (searchCollections env).filter (fun name => pyStartsWith (pyDrop 3 w) name) = []) :
    (searchTerms env patternArg).2 = [] ∧
    List.Perm (search env patternArg)
      ((env.kwdb.search (pyJoin " " (searchTerms env patternArg).1)
          (searchParsed patternArg).2).map (mkSearchResult env)) := by
  have hnil : (searchTerms env patternArg).2 = [] :=
    collectSearchTerms_snd_nil _ _ h
  refine ⟨hnil, ?_⟩
  simp only [search]
  have hfilter :
      (env.kwdb.search (pyJoin " " (searchTerms env patternArg).1)
          (searchParsed patternArg).2).filter
        (fun kw => decide ((searchTerms env patternArg).2 = []
            ∨ pyLower kw.collection_name ∈ (searchTerms env patternArg).2))
      = env.kwdb.search (pyJoin " " (searchTerms env patternArg).1)
          (searchParsed patternArg).2 := by
    apply List.filter_eq_self.mpr
    intro kw _
    simp [hnil]
  rw [hfilter]
  exact List.perm_insertionSort _ _

/-- C9 witness: the token `in:zzz` matches no collection of the store, and
the `Lib` row for `click` is still returned. -/
theorem c9_witness :
    (searchTerms envG "in:zzz click").2 = [] ∧
    List.Perm (search envG "in:zzz click")
      ((envG.kwdb.search (pyJoin " " (searchTerms envG "in:zzz click").1)
          (searchParsed "in:zzz click").2).map (mkSearchResult envG)) :=
  c9_empty_filters_no_filtering envG "in:zzz click" (by decide)

/-- C5 counterexample: with no collection name starting with `builtin`, the
filter list for `in:builtin click` is empty, so no collection filtering is
applied and a keyword of `OtherLib` is returned — its collection name does
not start with `builtin`, contradicting the claim as stated. -/
theorem c5_counterexample :
    (search envE "in:builtin click").map
        (fun r => pyStartsWith "builtin" (pyLower r.collection_name)) = [false] := by
  decide
